import Mathlib

/-!
Verification of the scoring core of the AI-stock-analysis API
(src/app.py).  The embedding models Python numbers as exact rationals,
Python dicts as association lists in insertion order, Python exceptions
as the `Except String` monad (the message names the Python exception),
and the `print` warnings of `score_ai_company` as an explicit list of
emitted warning strings.
-/

/-- Embedding of `score_metric(data, thresholds, reverse=False)`
(src/app.py lines 5-27).  Python evaluates `thresholds[-1]`,
`thresholds[-2]`, ... lazily, raising `IndexError` when the negative
index is out of range; `l.reverse.get? i` models `l[-(i+1)]`. -/
def score_metric (data : ℚ) (thresholds : List ℚ) (reverse : Bool := false) :
    Except String ℕ :=
  let ts := if reverse then thresholds.reverse else thresholds
  match ts.reverse.get? 0 with
  | none => Except.error "IndexError: list index out of range"
  | some t =>
    if data ≥ t then Except.ok 5 else
    match ts.reverse.get? 1 with
    | none => Except.error "IndexError: list index out of range"
    | some t =>
      if data ≥ t then Except.ok 4 else
      match ts.reverse.get? 2 with
      | none => Except.error "IndexError: list index out of range"
      | some t =>
        if data ≥ t then Except.ok 3 else
        match ts.reverse.get? 3 with
        | none => Except.error "IndexError: list index out of range"
        | some t =>
          if data ≥ t then Except.ok 2 else Except.ok 1

/-- The simulated data table of `fetch_real_time_data`
(src/app.py lines 41-59), in source order. -/
def simulated_data : List (String × ℚ) :=
  [("AI R&D Spending", 750000000),
   ("Acquisitions of AI Companies", 3),
   ("Dedicated AI Budgets", 500000000),
   ("Number of AI Experts", 1500),
   ("Hiring Trends", 50),
   ("Academic Partnerships", 10),
   ("AI Patents Filed", 250),
   ("Research Publications", 100),
   ("Open-Source Contributions", 50),
   ("AI-Driven Products", 5),
   ("Customer Use Cases", 20),
   ("AI Research Partnerships", 10),
   ("Industry Leadership Roles", 5),
   ("Reputation in AI", 4),
   ("Media Coverage", 4),
   ("Stock Performance Tied to AI", 4),
   ("AI Investment Narratives", 4)]

/-- Embedding of `fetch_real_time_data(metric, company_symbol)`
(src/app.py lines 30-60): `simulated_data.get(metric, None)`, ignoring
the company symbol. -/
def fetch_real_time_data (metric : String) (company_symbol : String) :
    Option ℚ :=
  List.lookup metric simulated_data

/-- A metric-name-to-weight mapping (one category of a rubric). -/
abbrev MetricWeights := List (String × ℚ)

/-- A rubric: category name to metric weights (src/app.py data model). -/
abbrev Rubric := List (String × MetricWeights)

/-- The `default_rubric` dict of `score_ai_company`
(src/app.py lines 75-107). -/
def default_rubric : Rubric :=
  [("Financial Metrics",
    [("AI R&D Spending", 0.1),
     ("Acquisitions of AI Companies", 0.1),
     ("Dedicated AI Budgets", 0.1)]),
   ("Workforce and Talent",
    [("Number of AI Experts", 0.0667),
     ("Hiring Trends", 0.0333),
     ("Academic Partnerships", 0.0333)]),
   ("Intellectual Property and Research",
    [("AI Patents Filed", 0.0667),
     ("Research Publications", 0.0333),
     ("Open-Source Contributions", 0.0333)]),
   ("Product and Service Offerings",
    [("AI-Driven Products", 0.075),
     ("Customer Use Cases", 0.075)]),
   ("Partnerships and Collaborations",
    [("AI Research Partnerships", 0.05),
     ("Industry Leadership Roles", 0.05)]),
   ("Market Perception",
    [("Reputation in AI", 0.025),
     ("Media Coverage", 0.025)]),
   ("Stock Market and Investor Sentiment",
    [("Stock Performance Tied to AI", 0.025),
     ("AI Investment Narratives", 0.025)])]

/-- The `scoring_thresholds` dict of `score_ai_company`
(src/app.py lines 112-130). -/
def scoring_thresholds : List (String × List ℚ) :=
  [("AI R&D Spending", [50000000, 100000000, 500000000, 1000000000]),
   ("Acquisitions of AI Companies", [1, 2, 5, 10]),
   ("Dedicated AI Budgets", [50000000, 100000000, 500000000, 1000000000]),
   ("Number of AI Experts", [100, 500, 1000, 2000]),
   ("Hiring Trends", [10, 20, 50, 100]),
   ("Academic Partnerships", [1, 5, 10, 20]),
   ("AI Patents Filed", [10, 50, 100, 500]),
   ("Research Publications", [5, 20, 50, 100]),
   ("Open-Source Contributions", [1, 10, 25, 50]),
   ("AI-Driven Products", [1, 3, 5, 10]),
   ("Customer Use Cases", [5, 10, 20, 50]),
   ("AI Research Partnerships", [1, 5, 10, 20]),
   ("Industry Leadership Roles", [1, 3, 5, 10]),
   ("Reputation in AI", [1, 2, 3, 5]),
   ("Media Coverage", [1, 2, 3, 5]),
   ("Stock Performance Tied to AI", [1, 2, 3, 5]),
   ("AI Investment Narratives", [1, 2, 3, 5])]

/-- The warning text printed for a missing metric
(src/app.py line 145). -/
def warningMsg (metric : String) : String :=
  "Warning: Missing data for " ++ metric ++ "."

/-- The inner loop of `score_ai_company` over the metrics of one
category (src/app.py lines 138-145): returns the per-metric score dict
entries, the accumulated `category_score`, and the warnings printed.
Missing threshold entries would raise `KeyError`
(`scoring_thresholds[metric]`). -/
def process_metrics (company_symbol : String) :
    MetricWeights → Except String (List (String × ℕ) × ℚ × List String)
  | [] => Except.ok ([], 0, [])
  | (metric, weight) :: rest =>
    match fetch_real_time_data metric company_symbol with
    | some data =>
      match List.lookup metric scoring_thresholds with
      | none => Except.error ("KeyError: " ++ metric)
      | some thresholds =>
        match score_metric data thresholds with
        | Except.error e => Except.error e
        | Except.ok metric_score =>
          match process_metrics company_symbol rest with
          | Except.error e => Except.error e
          | Except.ok (ds, cs, ws) =>
            Except.ok ((metric, metric_score) :: ds,
                       (metric_score : ℚ) * weight + cs, ws)
    | none =>
      match process_metrics company_symbol rest with
      | Except.error e => Except.error e
      | Except.ok (ds, cs, ws) =>
        Except.ok (ds, cs, warningMsg metric :: ws)

/-- The outer loop of `score_ai_company` over categories
(src/app.py lines 133-146): returns the `scores` dict, the
`category_scores` dict, and all warnings, in iteration order. -/
def process_categories (company_symbol : String) :
    Rubric →
    Except String
      (List (String × List (String × ℕ)) × List (String × ℚ) × List String)
  | [] => Except.ok ([], [], [])
  | (category, metrics) :: rest =>
    match process_metrics company_symbol metrics with
    | Except.error e => Except.error e
    | Except.ok (ds, cs, ws) =>
      match process_categories company_symbol rest with
      | Except.error e => Except.error e
      | Except.ok (dss, css, wss) =>
        Except.ok ((category, ds) :: dss, (category, cs) :: css, ws ++ wss)

/-- Embedding of `total_weight` (src/app.py line 149): the sum of every
weight declared in the rubric, over all categories and metrics. -/
def total_weight (rubric : Rubric) : ℚ :=
  (rubric.map (fun c => (c.2.map Prod.snd).sum)).sum

/-- The dictionary returned by `score_ai_company`
(src/app.py lines 153-157), with the printed warnings recorded in
`warnings`. -/
structure ScoreResult where
  category_scores : List (String × ℚ)
  overall_score : ℚ
  detailed_scores : List (String × List (String × ℕ))
  warnings : List String
deriving Repr, DecidableEq

/-- Embedding of `score_ai_company(company_symbol, custom_weights=None)`
(src/app.py lines 63-157).  `custom_weights or default_rubric` falls
back to the default rubric when `custom_weights` is `None` or an empty
dict (both falsy).  The dict comprehension on line 150 divides only when
`category_scores` is nonempty; a zero `total_weight` then raises
`ZeroDivisionError`. -/
def score_ai_company (company_symbol : String)
    (custom_weights : Option Rubric := none) : Except String ScoreResult :=
  let rubric : Rubric :=
    match custom_weights with
    | some r => if r.isEmpty then default_rubric else r
    | none => default_rubric
  match process_categories company_symbol rubric with
  | Except.error e => Except.error e
  | Except.ok (scores, category_scores, warnings) =>
    if category_scores.isEmpty then
      Except.ok ⟨[], 0, scores, warnings⟩
    else if total_weight rubric = 0 then
      Except.error "ZeroDivisionError: division by zero"
    else
      let normalized_scores :=
        category_scores.map (fun p => (p.1, p.2 / total_weight rubric))
      Except.ok ⟨normalized_scores, (normalized_scores.map Prod.snd).sum,
                 scores, warnings⟩

/-- C1: with working order a0..a3 (after reversal when reverse is true),
`score_metric` is the greater-or-equal ladder from the top threshold
down, and the documented examples for thresholds [10,20,30,40] hold. -/
theorem score_metric_ladder (v t0 t1 t2 t3 : ℚ) (rev : Bool) :
    (score_metric v [t0, t1, t2, t3] rev =
      Except.ok
        (if v ≥ (if rev then t0 else t3) then 5
         else if v ≥ (if rev then t1 else t2) then 4
         else if v ≥ (if rev then t2 else t1) then 3
         else if v ≥ (if rev then t3 else t0) then 2
         else 1)) ∧
    score_metric 5 [10, 20, 30, 40] = Except.ok 1 ∧
    score_metric 10 [10, 20, 30, 40] = Except.ok 2 ∧
    score_metric 25 [10, 20, 30, 40] = Except.ok 3 ∧
    score_metric 35 [10, 20, 30, 40] = Except.ok 4 ∧
    score_metric 100 [10, 20, 30, 40] = Except.ok 5 := by
  refine ⟨?_, by rfl, by rfl, by rfl, by rfl, by rfl⟩
  cases rev <;> simp [score_metric] <;> split_ifs <;> rfl

/-- C7: reversing the scoring logic equals scoring against the reversed
threshold list. -/
theorem score_metric_reverse_eq (v t0 t1 t2 t3 : ℚ) :
    score_metric v [t0, t1, t2, t3] true =
      score_metric v [t3, t2, t1, t0] false := by
  simp [score_metric]

/-- C8 helper: on any 4-element threshold list, ordered or not,
`score_metric` succeeds with a score between 1 and 5. -/
theorem score_metric_total (v t0 t1 t2 t3 : ℚ) (rev : Bool) :
    ∃ n, score_metric v [t0, t1, t2, t3] rev = Except.ok n ∧
      1 ≤ n ∧ n ≤ 5 := by
  cases rev <;> simp [score_metric] <;> split_ifs <;>
    exact ⟨_, rfl, by omega, by omega⟩

/-- C8: on every 4-element threshold list, even one that is not
ascending, `score_metric` never errors and returns a value in
{1,2,3,4,5}. -/
theorem score_metric_never_errors (v t0 t1 t2 t3 : ℚ) (rev : Bool) :
    ∃ n, score_metric v [t0, t1, t2, t3] rev = Except.ok n ∧
      (n = 1 ∨ n = 2 ∨ n = 3 ∨ n = 4 ∨ n = 5) := by
  obtain ⟨n, h, h1, h5⟩ := score_metric_total v t0 t1 t2 t3 rev
  exact ⟨n, h, by omega⟩

/-- C9: for a fixed 4-element threshold list and reverse flag,
`score_metric` is monotone non-decreasing in the scored value, even when
the thresholds are not ascending. -/
theorem score_metric_monotone (t0 t1 t2 t3 v1 v2 : ℚ) (rev : Bool)
    (n1 n2 : ℕ) (hv : v1 ≤ v2)
    (h1 : score_metric v1 [t0, t1, t2, t3] rev = Except.ok n1)
    (h2 : score_metric v2 [t0, t1, t2, t3] rev = Except.ok n2) :
    n1 ≤ n2 := by
  cases rev <;> simp [score_metric] at h1 h2 <;>
    split_ifs at h1 h2 <;> simp_all <;> first | omega | linarith

/-- Witness for C9 at v1 = 12, v2 = 27 on thresholds [10,20,30,40]. -/
theorem score_metric_monotone_witness :
    (12 : ℚ) ≤ 27 ∧ (2 : ℕ) ≤ 3 :=
  ⟨by norm_num,
   score_metric_monotone 10 20 30 40 12 27 false 2 3 (by norm_num)
     (by rfl) (by rfl)⟩

/-- Every metric present in the simulated data table has a 4-element
entry in the scoring thresholds table. -/
theorem fetch_some_thresholds (m sym : String) (d : ℚ)
    (h : fetch_real_time_data m sym = some d) :
    ∃ t0 t1 t2 t3 : ℚ,
      List.lookup m scoring_thresholds = some [t0, t1, t2, t3] := by
  simp only [fetch_real_time_data, simulated_data, List.lookup] at h
  repeat' split at h
  all_goals try exact Option.noConfusion h
  all_goals rename_i hbeq
  all_goals rw [beq_iff_eq] at hbeq
  all_goals subst hbeq
  all_goals exact ⟨_, _, _, _, rfl⟩

/-- The metric loop never raises: a metric either scores or is skipped. -/
theorem process_metrics_ok (sym : String) (l : MetricWeights) :
    ∃ out, process_metrics sym l = Except.ok out := by
  induction l with
  | nil => exact ⟨_, rfl⟩
  | cons mw rest ih =>
    obtain ⟨⟨d, c, w⟩, hrest⟩ := ih
    obtain ⟨m, wt⟩ := mw
    cases hf : fetch_real_time_data m sym with
    | none =>
      refine ⟨(d, c, warningMsg m :: w), ?_⟩
      simp [process_metrics, hf, hrest]
    | some data =>
      obtain ⟨t0, t1, t2, t3, ht⟩ := fetch_some_thresholds m sym data hf
      obtain ⟨n, hn, _, _⟩ := score_metric_total data t0 t1 t2 t3 false
      refine ⟨((m, n) :: d, (n : ℚ) * wt + c, w), ?_⟩
      simp [process_metrics, hf, ht, hn, hrest]

/-- The category loop emits exactly one category score per rubric
category, in order. -/
theorem process_categories_fst (sym : String) (r : Rubric)
    {d : List (String × List (String × ℕ))} {cs : List (String × ℚ)}
    {ws : List String}
    (h : process_categories sym r = Except.ok (d, cs, ws)) :
    cs.map Prod.fst = r.map Prod.fst := by
  induction r generalizing d cs ws with
  | nil => simp [process_categories] at h; simp [h.2.1]
  | cons cat rest ih =>
    obtain ⟨c, ms⟩ := cat
    simp only [process_categories] at h
    cases hm : process_metrics sym ms with
    | error e => rw [hm] at h; exact absurd h (by simp)
    | ok out =>
      obtain ⟨ds, csc, wsc⟩ := out
      rw [hm] at h
      cases hr : process_categories sym rest with
      | error e => rw [hr] at h; exact absurd h (by simp)
      | ok out2 =>
        obtain ⟨dss, css, wss⟩ := out2
        rw [hr] at h
        simp only [Except.ok.injEq, Prod.mk.injEq] at h
        obtain ⟨h1, h2, h3⟩ := h
        subst h1; subst h3
        rw [← h2]
        simp only [List.map_cons]
        rw [ih hr]

/-- The category loop never raises. -/
theorem process_categories_ok (sym : String) (r : Rubric) :
    ∃ d cs ws, process_categories sym r = Except.ok (d, cs, ws) ∧
      cs.map Prod.fst = r.map Prod.fst := by
  induction r with
  | nil => exact ⟨_, _, _, rfl, rfl⟩
  | cons cat rest ih =>
    obtain ⟨cn, ms⟩ := cat
    obtain ⟨d, cs, ws, hr, hfst⟩ := ih
    obtain ⟨⟨ds, c, wsm⟩, hm⟩ := process_metrics_ok sym ms
    refine ⟨(cn, ds) :: d, (cn, c) :: cs, wsm ++ ws, ?_, ?_⟩
    · simp only [process_categories]
      rw [hm, hr]
    · simp [hfst]

/-- The metric loop ignores the company symbol: the data source keys
only on the metric name. -/
theorem process_metrics_sym (s1 s2 : String) (l : MetricWeights) :
    process_metrics s1 l = process_metrics s2 l := by
  induction l with
  | nil => rfl
  | cons mw rest ih =>
    obtain ⟨m, wt⟩ := mw
    simp only [process_metrics, ih]
    rfl

/-- The category loop ignores the company symbol. -/
theorem process_categories_sym (s1 s2 : String) (r : Rubric) :
    process_categories s1 r = process_categories s2 r := by
  induction r with
  | nil => rfl
  | cons cat rest ih =>
    obtain ⟨cn, ms⟩ := cat
    simp only [process_categories, ih, process_metrics_sym s1 s2 ms]

/-- The whole evaluation ignores the company symbol. -/
theorem score_ai_company_sym (s1 s2 : String) (cw : Option Rubric) :
    score_ai_company s1 cw = score_ai_company s2 cw := by
  simp only [score_ai_company, process_categories_sym s1 s2]

/-- Unfolding of a successful evaluation of a nonempty custom rubric
with nonzero total weight. -/
theorem score_ai_company_some_eq (sym : String) (r : Rubric)
    (d : List (String × List (String × ℕ))) (cs : List (String × ℚ))
    (ws : List String)
    (hne : r ≠ []) (htw : total_weight r ≠ 0)
    (hp : process_categories sym r = Except.ok (d, cs, ws)) :
    score_ai_company sym (some r) =
      Except.ok ⟨cs.map (fun p => (p.1, p.2 / total_weight r)),
        ((cs.map (fun p => (p.1, p.2 / total_weight r))).map Prod.snd).sum,
        d, ws⟩ := by
  have hfst := process_categories_fst sym r hp
  have hcs : cs ≠ [] := by
    intro hnil
    rw [hnil] at hfst
    cases r with
    | nil => exact hne rfl
    | cons a t => simp at hfst
  have hre : r.isEmpty = false := by
    cases r with
    | nil => exact absurd rfl hne
    | cons a t => rfl
  have hcse : cs.isEmpty = false := by
    cases cs with
    | nil => exact absurd rfl hcs
    | cons a t => rfl
  simp only [score_ai_company, hre, Bool.false_eq_true, if_false]
  rw [hp]
  simp only [hcse, Bool.false_eq_true, if_false, if_neg htw]

/-- Unfolding of an evaluation of a nonempty custom rubric whose
declared weights sum to zero: the dict comprehension on line 150 of
src/app.py divides by zero. -/
theorem score_ai_company_zero_weight (sym : String) (r : Rubric)
    (hne : r ≠ []) (htw : total_weight r = 0) :
    score_ai_company sym (some r) =
      Except.error "ZeroDivisionError: division by zero" := by
  obtain ⟨d, cs, ws, hp, hfst⟩ := process_categories_ok sym r
  have hcs : cs ≠ [] := by
    intro hnil
    rw [hnil] at hfst
    cases r with
    | nil => exact hne rfl
    | cons a t => simp at hfst
  have hre : r.isEmpty = false := by
    cases r with
    | nil => exact absurd rfl hne
    | cons a t => rfl
  have hcse : cs.isEmpty = false := by
    cases cs with
    | nil => exact absurd rfl hcs
    | cons a t => rfl
  simp only [score_ai_company, hre, Bool.false_eq_true, if_false]
  rw [hp]
  simp only [hcse, Bool.false_eq_true, if_false, if_pos htw]

/-- The total weight of the default rubric is the nonzero constant
0.9166. -/
theorem total_weight_default : total_weight default_rubric = 0.9166 := by
  norm_num [total_weight, default_rubric]

/-- An evaluation that falls back to the default rubric succeeds. -/
theorem score_ai_company_none_ok (sym : String) :
    ∃ res, score_ai_company sym none = Except.ok res := by
  obtain ⟨d, cs, ws, hp, hfst⟩ := process_categories_ok sym default_rubric
  have hcs : cs ≠ [] := by
    intro hnil
    rw [hnil] at hfst
    simp [default_rubric] at hfst
  have hcse : cs.isEmpty = false := by
    cases cs with
    | nil => exact absurd rfl hcs
    | cons a t => rfl
  have htw : total_weight default_rubric ≠ 0 := by
    rw [total_weight_default]; norm_num
  simp only [score_ai_company]
  rw [hp]
  simp only [hcse, Bool.false_eq_true, if_false, if_neg htw]
  exact ⟨_, rfl⟩

/-- C2: the normalization denominator is the sum of every declared
weight across all categories and metrics (data availability plays no
role in it), each category's normalized score is its raw in-loop score
divided by that grand total, and the overall score is the sum of the
normalized category scores. -/
theorem score_normalization (sym : String) (r : Rubric) (res : ScoreResult)
    (d : List (String × List (String × ℕ))) (cs : List (String × ℚ))
    (ws : List String)
    (hne : r ≠ [])
    (hp : process_categories sym r = Except.ok (d, cs, ws))
    (hres : score_ai_company sym (some r) = Except.ok res) :
    res.category_scores = cs.map (fun p => (p.1, p.2 / total_weight r)) ∧
    res.overall_score = (res.category_scores.map Prod.snd).sum ∧
    total_weight r = ((r.map (fun c => c.2.map Prod.snd)).join).sum := by
  by_cases htw : total_weight r = 0
  · rw [score_ai_company_zero_weight sym r hne htw] at hres
    exact absurd hres (by simp)
  · rw [score_ai_company_some_eq sym r d cs ws hne htw hp] at hres
    injection hres with h
    subst h
    refine ⟨rfl, rfl, ?_⟩
    simp only [total_weight, List.sum_join, List.map_map]
    rfl

/-- Witness for C2 on the one-metric rubric Cat/AI Patents Filed with
weight 1: the metric value 250 scores 4, the category normalizes to
4 / 1, and the overall score is their sum. -/
theorem score_normalization_witness :
    ([("Cat", [("AI Patents Filed", (1 : ℚ))])] : Rubric) ≠ [] ∧
    process_categories "X" [("Cat", [("AI Patents Filed", (1 : ℚ))])] =
      Except.ok ([("Cat", [("AI Patents Filed", 4)])], [("Cat", (4 : ℚ))],
        []) ∧
    score_ai_company "X" (some [("Cat", [("AI Patents Filed", (1 : ℚ))])]) =
      Except.ok ⟨[("Cat", (4 : ℚ))], 4, [("Cat", [("AI Patents Filed", 4)])],
        []⟩ ∧
    (ScoreResult.category_scores
        ⟨[("Cat", (4 : ℚ))], 4, [("Cat", [("AI Patents Filed", 4)])], []⟩ =
      [("Cat", (4 : ℚ))].map
        (fun p =>
          (p.1, p.2 / total_weight [("Cat", [("AI Patents Filed", (1 : ℚ))])])) ∧
    ScoreResult.overall_score
        ⟨[("Cat", (4 : ℚ))], 4, [("Cat", [("AI Patents Filed", 4)])], []⟩ =
      ((ScoreResult.category_scores
        ⟨[("Cat", (4 : ℚ))], 4, [("Cat", [("AI Patents Filed", 4)])],
          []⟩).map Prod.snd).sum ∧
    total_weight [("Cat", [("AI Patents Filed", (1 : ℚ))])] =
      (([("Cat", [("AI Patents Filed", (1 : ℚ))])].map
        (fun c => c.2.map Prod.snd)).join).sum) := by
  have hf : fetch_real_time_data "AI Patents Filed" "X" = some 250 := rfl
  have ht : List.lookup "AI Patents Filed" scoring_thresholds =
      some [10, 50, 100, 500] := rfl
  have hs : score_metric 250 [10, 50, 100, 500] = Except.ok 4 := rfl
  have hm : process_metrics "X" [("AI Patents Filed", (1 : ℚ))] =
      Except.ok ([("AI Patents Filed", 4)], (4 : ℚ), []) := by
    simp [process_metrics, hf, ht, hs]
  have hp : process_categories "X" [("Cat", [("AI Patents Filed", (1 : ℚ))])] =
      Except.ok ([("Cat", [("AI Patents Filed", 4)])], [("Cat", (4 : ℚ))],
        []) := by
    simp [process_categories, hm]
  have htw : total_weight [("Cat", [("AI Patents Filed", (1 : ℚ))])] = 1 := by
    simp [total_weight]
  have hres : score_ai_company "X"
      (some [("Cat", [("AI Patents Filed", (1 : ℚ))])]) =
      Except.ok ⟨[("Cat", (4 : ℚ))], 4, [("Cat", [("AI Patents Filed", 4)])],
        []⟩ := by
    rw [score_ai_company_some_eq "X" _ _ _ _ (by simp)
      (by rw [htw]; norm_num) hp]
    simp [htw]
  exact ⟨by simp, hp, hres,
    score_normalization "X" _ _ _ _ _ (by simp) hp hres⟩

/-- C3: a metric whose fetch is absent does not fail the evaluation: it
is skipped with a warning, contributes neither score nor weight to the
in-loop category sum, is omitted from the detailed scores, and yet its
declared weight still counts in the total weight. -/
theorem missing_metric_skip (sym metric : String) (weight : ℚ)
    (rest : MetricWeights) (cat : String) (rr : Rubric)
    (d : List (String × ℕ)) (c : ℚ) (ws : List String)
    (hmiss : fetch_real_time_data metric sym = none)
    (hrest : process_metrics sym rest = Except.ok (d, c, ws)) :
    process_metrics sym ((metric, weight) :: rest) =
      Except.ok (d, c, warningMsg metric :: ws) ∧
    total_weight ((cat, (metric, weight) :: rest) :: rr) =
      weight + total_weight ((cat, rest) :: rr) := by
  constructor
  · simp [process_metrics, hmiss, hrest]
  · simp [total_weight]
    ring

/-- Witness for C3 with the unknown metric name No Such Metric. -/
theorem missing_metric_skip_witness :
    fetch_real_time_data "No Such Metric" "X" = none ∧
    process_metrics "X" [] = Except.ok ([], 0, []) ∧
    (process_metrics "X" [("No Such Metric", (1 : ℚ))] =
       Except.ok ([], 0, [warningMsg "No Such Metric"]) ∧
     total_weight [("Cat", [("No Such Metric", (1 : ℚ))])] =
       1 + total_weight [("Cat", ([] : MetricWeights))]) :=
  ⟨rfl, rfl,
    missing_metric_skip "X" "No Such Metric" 1 [] "Cat" [] [] 0 [] rfl rfl⟩

/-- C4 counterexample: an empty rubric has declared weights summing to
zero, yet the evaluation succeeds (the empty dict is falsy, so the
default rubric is silently used) instead of raising any error. -/
theorem empty_rubric_not_rejected :
    total_weight ([] : Rubric) = 0 ∧
    (score_ai_company "TSLA" (some [])).isOk = true := by
  refine ⟨rfl, ?_⟩
  obtain ⟨res, h⟩ := score_ai_company_none_ok "TSLA"
  show (score_ai_company "TSLA" none).isOk = true
  rw [h]
  rfl

/-- C4 amended: a nonempty rubric whose declared weights sum to zero
makes score_ai_company raise ZeroDivisionError (no NaN or Inf is
produced); an empty rubric is silently replaced by the default rubric
instead. -/
theorem zero_weight_rubric_error (sym : String) (r : Rubric)
    (hne : r ≠ []) (htw : total_weight r = 0) :
    score_ai_company sym (some r) =
      Except.error "ZeroDivisionError: division by zero" :=
  score_ai_company_zero_weight sym r hne htw

/-- Witness for the amended C4 on a one-category all-zero-weight
rubric. -/
theorem zero_weight_rubric_error_witness :
    ([("Cat", [("AI Patents Filed", (0 : ℚ))])] : Rubric) ≠ [] ∧
    total_weight [("Cat", [("AI Patents Filed", (0 : ℚ))])] = 0 ∧
    score_ai_company "X" (some [("Cat", [("AI Patents Filed", (0 : ℚ))])]) =
      Except.error "ZeroDivisionError: division by zero" := by
  have htw : total_weight [("Cat", [("AI Patents Filed", (0 : ℚ))])] = 0 := by
    norm_num [total_weight]
  exact ⟨by simp, htw, zero_weight_rubric_error "X" _ (by simp) htw⟩

/-- C5: the evaluation is the same for every ticker, because the data
source keys only on the metric name and ignores the subject. -/
theorem ticker_irrelevant (t1 t2 : String) :
    (∀ metric, fetch_real_time_data metric t1 =
      fetch_real_time_data metric t2) ∧
    score_ai_company t1 none = score_ai_company t2 none :=
  ⟨fun _ => rfl, score_ai_company_sym t1 t2 none⟩

/-- C10: a falsy custom_weights value (None or the empty dict) silently
selects the default rubric: an empty custom rubric yields no error and
the same result as no custom weights at all. -/
theorem falsy_custom_weights_default (sym : String) :
    score_ai_company sym (some []) = score_ai_company sym none ∧
    (score_ai_company sym (some [])).isOk = true := by
  refine ⟨rfl, ?_⟩
  obtain ⟨res, h⟩ := score_ai_company_none_ok sym
  show (score_ai_company sym none).isOk = true
  rw [h]
  rfl

/-- Summing the snd components after dividing each by t equals the
divided sum. -/
theorem map_snd_div (cs : List (String × ℚ)) (t : ℚ) :
    ((cs.map (fun p => (p.1, p.2 / t))).map Prod.snd).sum
      = (cs.map Prod.snd).sum / t := by
  induction cs with
  | nil => simp
  | cons p l ih => simp only [List.map_cons, List.sum_cons, ih, add_div]

/-- When every metric of a category is present and weights are
non-negative, the in-loop category score lies between 1 and 5 times the
category's weight sum. -/
theorem process_metrics_bounds (sym : String) :
    ∀ l : MetricWeights, (∀ mw ∈ l, 0 ≤ mw.2) →
      (∀ mw ∈ l, (fetch_real_time_data mw.1 sym).isSome) →
    ∃ d c ws, process_metrics sym l = Except.ok (d, c, ws) ∧
      (l.map Prod.snd).sum ≤ c ∧ c ≤ 5 * (l.map Prod.snd).sum := by
  intro l
  induction l with
  | nil =>
    intro _ _
    exact ⟨[], 0, [], rfl, by simp, by simp⟩
  | cons mw rest ih =>
    intro hw hall
    obtain ⟨m, wt⟩ := mw
    have hwt : 0 ≤ wt := hw (m, wt) (List.mem_cons_self _ _)
    have hsome := hall (m, wt) (List.mem_cons_self _ _)
    obtain ⟨data, hf⟩ := Option.isSome_iff_exists.mp hsome
    obtain ⟨t0, t1, t2, t3, htl⟩ := fetch_some_thresholds m sym data hf
    obtain ⟨n, hn, h1n, h5n⟩ := score_metric_total data t0 t1 t2 t3 false
    obtain ⟨d, c, ws, hrest, hlo, hhi⟩ :=
      ih (fun x hx => hw x (List.mem_cons_of_mem _ hx))
        (fun x hx => hall x (List.mem_cons_of_mem _ hx))
    refine ⟨(m, n) :: d, (n : ℚ) * wt + c, ws, ?_, ?_, ?_⟩
    · simp [process_metrics, hf, htl, hn, hrest]
    · simp only [List.map_cons, List.sum_cons]
      have h1 : (1 : ℚ) ≤ (n : ℚ) := by exact_mod_cast h1n
      nlinarith [mul_nonneg (sub_nonneg.mpr h1) hwt]
    · simp only [List.map_cons, List.sum_cons]
      have h5 : (n : ℚ) ≤ 5 := by exact_mod_cast h5n
      nlinarith [mul_nonneg (sub_nonneg.mpr h5) hwt]

/-- When every metric of the rubric is present and weights are
non-negative, the summed raw category scores lie between 1 and 5 times
the total weight. -/
theorem process_categories_bounds (sym : String) :
    ∀ r : Rubric, (∀ cat ∈ r, ∀ mw ∈ cat.2, 0 ≤ mw.2) →
      (∀ cat ∈ r, ∀ mw ∈ cat.2, (fetch_real_time_data mw.1 sym).isSome) →
    ∃ d cs ws, process_categories sym r = Except.ok (d, cs, ws) ∧
      total_weight r ≤ (cs.map Prod.snd).sum ∧
      (cs.map Prod.snd).sum ≤ 5 * total_weight r := by
  intro r
  induction r with
  | nil =>
    intro _ _
    exact ⟨[], [], [], rfl, by simp [total_weight], by simp [total_weight]⟩
  | cons cat rest ih =>
    intro hw hall
    obtain ⟨cn, ms⟩ := cat
    obtain ⟨d, cs, ws, hr, hlo, hhi⟩ :=
      ih (fun x hx => hw x (List.mem_cons_of_mem _ hx))
        (fun x hx => hall x (List.mem_cons_of_mem _ hx))
    obtain ⟨ds, c, wsm, hm, hclo, hchi⟩ :=
      process_metrics_bounds sym ms (hw (cn, ms) (List.mem_cons_self _ _))
        (hall (cn, ms) (List.mem_cons_self _ _))
    refine ⟨(cn, ds) :: d, (cn, c) :: cs, wsm ++ ws, ?_, ?_, ?_⟩
    · simp only [process_categories]
      rw [hm, hr]
    · simp only [total_weight, List.map_cons, List.sum_cons] at hlo ⊢
      linarith
    · simp only [total_weight, List.map_cons, List.sum_cons] at hhi ⊢
      linarith

/-- C6: with non-negative weights, positive total weight, and every
metric present, the overall score is the sum of the normalized category
scores and lies between 1 and 5 (the claim's bounds
1 * sum-of-weights / totalWeight and 5 * sum-of-weights / totalWeight,
since the sum of all declared weights is totalWeight itself). -/
theorem overall_score_bounds (sym : String) (r : Rubric) (res : ScoreResult)
    (hw : ∀ cat ∈ r, ∀ mw ∈ cat.2, 0 ≤ mw.2)
    (htw : 0 < total_weight r)
    (hall : ∀ cat ∈ r, ∀ mw ∈ cat.2, (fetch_real_time_data mw.1 sym).isSome)
    (hres : score_ai_company sym (some r) = Except.ok res) :
    res.overall_score = (res.category_scores.map Prod.snd).sum ∧
    1 ≤ res.overall_score ∧ res.overall_score ≤ 5 := by
  have hne : r ≠ [] := by
    intro h
    rw [h] at htw
    simp [total_weight] at htw
  obtain ⟨d, cs, ws, hp, hlo, hhi⟩ := process_categories_bounds sym r hw hall
  rw [score_ai_company_some_eq sym r d cs ws hne (ne_of_gt htw) hp] at hres
  injection hres with h
  subst h
  refine ⟨rfl, ?_, ?_⟩
  · show (1 : ℚ) ≤
      ((cs.map (fun p => (p.1, p.2 / total_weight r))).map Prod.snd).sum
    rw [map_snd_div, le_div_iff htw]
    linarith
  · show ((cs.map (fun p => (p.1, p.2 / total_weight r))).map Prod.snd).sum ≤ 5
    rw [map_snd_div, div_le_iff htw]
    linarith

/-- Witness for C6 on the one-metric rubric with weight 1: the overall
score is 4, which lies between 1 and 5. -/
theorem overall_score_bounds_witness :
    (∀ cat ∈ ([("Cat", [("AI Patents Filed", (1 : ℚ))])] : Rubric),
      ∀ mw ∈ cat.2, 0 ≤ mw.2) ∧
    (0 : ℚ) < total_weight [("Cat", [("AI Patents Filed", (1 : ℚ))])] ∧
    (∀ cat ∈ ([("Cat", [("AI Patents Filed", (1 : ℚ))])] : Rubric),
      ∀ mw ∈ cat.2, (fetch_real_time_data mw.1 "X").isSome) ∧
    score_ai_company "X" (some [("Cat", [("AI Patents Filed", (1 : ℚ))])]) =
      Except.ok ⟨[("Cat", (4 : ℚ))], 4, [("Cat", [("AI Patents Filed", 4)])],
        []⟩ ∧
    ((1 : ℚ) ≤ ScoreResult.overall_score
        ⟨[("Cat", (4 : ℚ))], 4, [("Cat", [("AI Patents Filed", 4)])], []⟩ ∧
      ScoreResult.overall_score
        ⟨[("Cat", (4 : ℚ))], 4, [("Cat", [("AI Patents Filed", 4)])], []⟩ ≤
        5) := by
  have htw : (0 : ℚ) <
      total_weight [("Cat", [("AI Patents Filed", (1 : ℚ))])] := by
    norm_num [total_weight]
  have hf : fetch_real_time_data "AI Patents Filed" "X" = some 250 := rfl
  have ht : List.lookup "AI Patents Filed" scoring_thresholds =
      some [10, 50, 100, 500] := rfl
  have hs : score_metric 250 [10, 50, 100, 500] = Except.ok 4 := rfl
  have hm : process_metrics "X" [("AI Patents Filed", (1 : ℚ))] =
      Except.ok ([("AI Patents Filed", 4)], (4 : ℚ), []) := by
    simp [process_metrics, hf, ht, hs]
  have hp : process_categories "X" [("Cat", [("AI Patents Filed", (1 : ℚ))])] =
      Except.ok ([("Cat", [("AI Patents Filed", 4)])], [("Cat", (4 : ℚ))],
        []) := by
    simp [process_categories, hm]
  have htw1 : total_weight [("Cat", [("AI Patents Filed", (1 : ℚ))])] = 1 := by
    simp [total_weight]
  have hres : score_ai_company "X"
      (some [("Cat", [("AI Patents Filed", (1 : ℚ))])]) =
      Except.ok ⟨[("Cat", (4 : ℚ))], 4, [("Cat", [("AI Patents Filed", 4)])],
        []⟩ := by
    rw [score_ai_company_some_eq "X" _ _ _ _ (by simp)
      (by rw [htw1]; norm_num) hp]
    simp [htw1]
  exact ⟨by decide, htw, by decide, hres,
    (overall_score_bounds "X" _ _ (by decide) htw (by decide) hres).2⟩
